import Mathlib

/-!
Verification development for the connection-pool and routing core of the
neo4j python driver (file src/neo4j/_async/io/_pool.py).

The Python classes are shallowly embedded: connection objects become a
record of their observable attributes, the per-address pool state becomes
a record of the address bucket and the reservation counter, and the
stateful methods become pure functions from state to state.  Concurrency
primitives (the pool lock and its condition variable) are not modelled as
such; the functions model the sequential effect of each operation, and the
outcome of a `cond.wait` call is passed in as data.
-/

namespace Neo4jPool

/-- A resolved endpoint, keyed structurally (matching Python address equality). -/
structure Address where
  host : String
  port : Nat
deriving DecidableEq, Repr

/-- Modelled from the spec: the possible outcomes of `connection.reset()`.
The connection class (`AsyncBolt`) is outside the given sources; the spec
classifies reset failures into the driver error taxonomy (sections 6 and 7),
plus `OSError` (caught explicitly by the health check in `_acquire`) and
task cancellation (caught by `release`). -/
inductive ResetOutcome
  | ok
  | osError
  | serviceUnavailable
  | sessionExpired
  | neo4jError
  | driverError
  | boltError
  | cancelled
deriving DecidableEq, Repr

/-- Observable attributes of a pooled connection (`AsyncBolt` object as seen
by `_pool.py`): the `in_use` flag, the monotone health predicates
`closed()` / `defunct()` / `stale()`, the protocol-clean flag `is_reset`,
the idle time read by `is_idle_for`, and the behaviour its next `reset()`
call would have.  `killed` and `resetAttempted` record the effect of
`kill()` and of an attempted `reset()` for the theorems. -/
structure Conn where
  id : Nat
  inUse : Bool := false
  closed : Bool := false
  defunct : Bool := false
  stale : Bool := false
  isReset : Bool := false
  idleTime : Nat := 0
  resetOutcome : ResetOutcome := .ok
  killed : Bool := false
  resetAttempted : Bool := false
deriving DecidableEq, Repr

/-- Modelled from the spec: `connection.kill()` is the forceful, non-blocking
close of the Bolt connection (section 3); it marks the connection unhealthy. -/
def kill (c : Conn) : Conn :=
  { c with killed := true, defunct := true }

/-- Modelled from the spec: `connection.close()` is the graceful close; a
no-op on an already closed connection (section 3). -/
def close_connection (c : Conn) : Conn :=
  { c with closed := true }

/-- Modelled from the spec: `is_idle_for(duration)` is the
time-since-last-activity predicate of the Bolt connection (section 3); the
connection class is outside the given sources. -/
def is_idle_for (c : Conn) (t : Nat) : Bool :=
  decide (t ≤ c.idleTime)

/-- Errors surfaced by the pool operations modelled here. -/
inductive PoolError
  | clientError (msg : String)
  | serviceUnavailable (msg : String)
  | sessionExpired
  | readServiceUnavailable
  | writeServiceUnavailable
  | openFailed
  | resetFatal (o : ResetOutcome)
  | cancelled
  | uncaughtReset
deriving DecidableEq, Repr

/-- State of one address bucket of `AsyncIOPool`: `connections[address]`
(the deque, insertion ordered) and `connections_reservations[address]`. -/
structure PoolState where
  bucket : List Conn
  reservations : Int
deriving DecidableEq, Repr

/-- `max_connection_pool_size`: `none` stands for the float infinity,
`some m` for an integer configuration value (negative means unbounded,
exactly as in `_acquire_new_later`). -/
def infinitePoolSize : Option Int → Bool
  | none => true
  | some m => decide (m < 0)

/-- The guarded reservation step of `AsyncIOPool._acquire_new_later`
(lines 156-167): under the lock, compute
`pool_size = len(connections) + reservations` and, if there is room,
increment the reservation and hand back the connection creator
(represented by `some` of the updated state). -/
def acquireNewLater (max : Option Int) (s : PoolState) : Option PoolState :=
  let poolSize : Int := (s.bucket.length : Int) + s.reservations
  let room : Bool :=
    infinitePoolSize max ||
      (match max with
       | none => true
       | some m => decide (poolSize < m))
  if room then some { s with reservations := s.reservations + 1 } else none

/-- Bucket-level effect of `AsyncIOPool.deactivate` (lines 329-349): keep the
in-use connections, remove and close the idle ones. -/
def deactivateBucket (bucket : List Conn) : List Conn × List Conn :=
  (bucket.filter (·.inUse), (bucket.filter (fun c => !c.inUse)).map close_connection)

/-- Outcome of the injected `opener(address, timeout)` call inside
`connection_creator`. -/
inductive OpenOutcome
  | success (c : Conn)
  | serviceUnavailable (msg : String)
  | otherError
deriving Repr

/-- Observable calls made by `connection_creator`, in order. -/
inductive PoolEvent
  | deactivated
  | appended (id : Nat)
deriving DecidableEq, Repr

/-- `connection_creator` from `AsyncIOPool._acquire_new_later`
(lines 134-154): run the opener; on success set `in_use`, decrement the
reservation and append to the bucket under one lock; on
`ServiceUnavailable` call `deactivate(address)` and re-raise, the
`finally` block decrementing the reservation; on any other failure the
`finally` block decrements the reservation and the error propagates. -/
def connectionCreator (out : OpenOutcome) (s : PoolState) :
    PoolState × List PoolEvent × Except PoolError Conn :=
  match out with
  | .success c =>
      let c2 := { c with inUse := true }
      ({ bucket := s.bucket ++ [c2], reservations := s.reservations - 1 },
       [.appended c2.id], .ok c2)
  | .serviceUnavailable msg =>
      let keepClose := deactivateBucket s.bucket
      ({ bucket := keepClose.1, reservations := s.reservations - 1 },
       [.deactivated], .error (.serviceUnavailable msg))
  | .otherError =>
      ({ s with reservations := s.reservations - 1 }, [], .error .openFailed)

/-- Invariant of the reservation accounting for one address: the
reservation counter is non-negative and, when the configured maximum is
finite (non-negative), the bucket size plus the reservations is bounded
by it. -/
def PoolInvariant (max : Option Int) (s : PoolState) : Prop :=
  0 ≤ s.reservations ∧
    match max with
    | some m => 0 ≤ m → (s.bucket.length : Int) + s.reservations ≤ m
    | none => True

/-- `AsyncIOPool._acquire_from_pool` (lines 89-97): scan the bucket for the
first connection with `in_use` false, set its `in_use` flag (and pool
back-reference, which has no observable counterpart in this model) and
return it together with the updated bucket. -/
def acquireFromPool : List Conn → Option (Conn × List Conn)
  | [] => none
  | c :: rest =>
    if c.inUse then
      match acquireFromPool rest with
      | none => none
      | some (c2, rest2) => some (c2, c :: rest2)
    else
      let c2 := { c with inUse := true }
      some (c2, c2 :: rest)

/-- The failure classes caught by the liveness check in `_acquire`
(line 188): `OSError`, `ServiceUnavailable`, `SessionExpired`. -/
def transportOrProtocolFailure : ResetOutcome → Bool
  | .osError => true
  | .serviceUnavailable => true
  | .sessionExpired => true
  | _ => false

/-- The `health_check` closure of `AsyncIOPool._acquire` (lines 176-190):
fail on `closed() or defunct() or stale()`; otherwise, when a liveness
check timeout is configured and the connection has been idle for at least
that long, run `reset()` bounded by the remaining deadline, failing on
`OSError` / `ServiceUnavailable` / `SessionExpired`; any other exception
from `reset()` propagates (`Except.error`). -/
def health_check (liveness : Option Nat) (c : Conn) : Except ResetOutcome Bool :=
  if c.closed || c.defunct || c.stale then .ok false
  else
    match liveness with
    | none => .ok true
    | some t =>
      if is_idle_for c t then
        match c.resetOutcome with
        | .ok => .ok true
        | o => if transportOrProtocolFailure o then .ok false else .error o
      else .ok true

/-- The in-place `list.remove(connection)` of `_acquire_from_pool_checked`
(line 122): drop the first connection with the given id; silently a no-op
when no such connection is present (the `except ValueError: pass`). -/
def eraseFirstById (i : Nat) : List Conn → List Conn
  | [] => []
  | c :: rest => if c.id == i then rest else c :: eraseFirstById i rest

/-- `AsyncIOPool._acquire_from_pool_checked` (lines 99-131), with explicit
fuel for the `while` loop (any fuel above the bucket length is enough,
since every repetition removes one connection from the bucket): while the
deadline has not expired, take a free connection; if the health check
rejects it, close it, remove it from the bucket and repeat; if the health
check passes, hand the connection out.  Returns the health-check verdict
(or the propagated reset error), the updated bucket, and the closed,
discarded connections. -/
def acquireFromPoolChecked (liveness : Option Nat) (expired : Bool) :
    Nat → List Conn → Except ResetOutcome (Option Conn) × List Conn × List Conn
  | 0, bucket => (.ok none, bucket, [])
  | fuel + 1, bucket =>
    if expired then (.ok none, bucket, [])
    else
      match acquireFromPool bucket with
      | none => (.ok none, bucket, [])
      | some (c, bucket2) =>
        match health_check liveness c with
        | .error o => (.error o, bucket2, [])
        | .ok true => (.ok (some c), bucket2, [])
        | .ok false =>
          let next := acquireFromPoolChecked liveness expired fuel
            (eraseFirstById c.id bucket2)
          (next.1, next.2.1, close_connection c :: next.2.2)

/-- The message of the pool-timeout `ClientError` raised by
`AsyncIOPool._acquire` (lines 216-219); the argument is the Python repr of
`deadline.original_timeout`. -/
def poolTimeoutMessage (originalTimeoutRepr : String) : String :=
  "failed to obtain a connection from the pool within " ++ originalTimeoutRepr ++
    "s (timeout)"

/-- `AsyncIOPool._acquire` (lines 169-221), one address.  The deadline is
modelled from the spec (the `Deadline` class is outside the given sources)
by its remaining timeout in `remaining` (`expired()` holding iff it is 0)
and by the repr of its original timeout.  `waits` lists the outcomes of
the successive `cond.wait` calls (`false` = timed out), `out` the outcome
of the opener should the grow path be taken, and `fuel` bounds the outer
`while True` loop (`none` = fuel exhausted before the loop finished). -/
def acquirePool (max : Option Int) (liveness : Option Nat)
    (originalTimeoutRepr : String) (remaining : Nat) (out : OpenOutcome) :
    Nat → List Bool → PoolState → Option (PoolState × Except PoolError Conn)
  | 0, _, _ => none
  | fuel + 1, waits, s =>
    match acquireFromPoolChecked liveness (remaining == 0) (s.bucket.length + 1)
        s.bucket with
    | (.error e, bucket2, _) => some ({ s with bucket := bucket2 }, .error (.resetFatal e))
    | (.ok (some c), bucket2, _) => some ({ s with bucket := bucket2 }, .ok c)
    | (.ok none, bucket2, _) =>
      let s2 : PoolState := { s with bucket := bucket2 }
      match acquireNewLater max s2 with
      | some s3 =>
        let r := connectionCreator out s3
        some (r.1, r.2.2)
      | none =>
        if remaining == 0 || !(waits.headD false) then
          some (s2, .error (.clientError (poolTimeoutMessage originalTimeoutRepr)))
        else
          acquirePool max liveness originalTimeoutRepr remaining out fuel waits.tail s2

/-- The skip condition of the reset phase of `AsyncIOPool.release`
(lines 263-265): `defunct() or closed() or is_reset` means there is
nothing to do protocol-wise. -/
def cleanOnRelease (c : Conn) : Bool :=
  c.defunct || c.closed || c.isReset

/-- The reset phase of `AsyncIOPool.release` (lines 261-286), threading the
captured-cancellation flag through the batch: clean connections are left
alone; once a cancellation has been captured, unclean connections are
killed instead of reset; otherwise `reset()` runs, `Neo4jError` /
`DriverError` / `BoltError` (with `ServiceUnavailable` and
`SessionExpired` caught as subclasses of `DriverError`) are swallowed, a
cancellation is
captured and the connection killed, and any other exception (`OSError`)
escapes immediately, aborting the rest of the function.  Returns the
updated batch, whether a cancellation was captured, and whether an
exception escaped. -/
def releaseResetPhase (cancelled : Bool) : List Conn → List Conn × Bool × Bool
  | [] => ([], cancelled, false)
  | c :: rest =>
    if cleanOnRelease c then
      let r := releaseResetPhase cancelled rest
      (c :: r.1, r.2.1, r.2.2)
    else if cancelled then
      let r := releaseResetPhase cancelled rest
      (kill c :: r.1, r.2.1, r.2.2)
    else
      match c.resetOutcome with
      | .ok =>
        let r := releaseResetPhase false rest
        ({ c with isReset := true, resetAttempted := true } :: r.1, r.2.1, r.2.2)
      | .osError =>
        ({ c with resetAttempted := true } :: rest, false, true)
      | .cancelled =>
        let r := releaseResetPhase true rest
        (kill { c with resetAttempted := true } :: r.1, r.2.1, r.2.2)
      | _ =>
        let r := releaseResetPhase false rest
        ({ c with resetAttempted := true } :: r.1, r.2.1, r.2.2)

/-- `AsyncIOPool.release` (lines 256-296): run the reset phase over the
batch; then, under the lock, clear `in_use` for every connection of the
batch and notify all waiters (the notification has no observable
counterpart in this sequential model); finally re-raise a captured
cancellation.  If an exception escaped the reset phase, the `in_use`
flags are never cleared and that exception propagates. -/
def release (conns : List Conn) : List Conn × Option PoolError :=
  let r := releaseResetPhase false conns
  if r.2.2 then (r.1, some .uncaughtReset)
  else
    (r.1.map (fun c => { c with inUse := false }),
     if r.2.1 then some .cancelled else none)

/-- The whole `connections` map of `AsyncIOPool`: an association list from
address to bucket, a key being present exactly when the Python
`defaultdict` holds it. -/
structure MapPoolState where
  connections : List (Address × List Conn)
deriving DecidableEq, Repr

/-- `self.connections.get(address)` without default insertion. -/
def lookupBucket (p : MapPoolState) (a : Address) : Option (List Conn) :=
  (p.connections.find? (fun kv => kv.1 == a)).map (·.2)

/-- `AsyncIOPool.in_use_connection_count` (lines 298-304):
`sum(connection.in_use for connection in self.connections.get(address, ()))`. -/
def in_use_connection_count (p : MapPoolState) (a : Address) : Nat :=
  ((lookupBucket p a).getD []).countP (·.inUse)

/-- Replace the bucket stored under a key (the in-place removals of
`deactivate`). -/
def setBucket (p : MapPoolState) (a : Address) (b : List Conn) : MapPoolState :=
  ⟨p.connections.map (fun kv => if kv.1 == a then (kv.1, b) else kv)⟩

/-- `del self.connections[address]`. -/
def dropBucket (p : MapPoolState) (a : Address) : MapPoolState :=
  ⟨p.connections.filter (fun kv => !(kv.1 == a))⟩

/-- `AsyncIOPool.deactivate` (lines 329-349): read the bucket (a
`defaultdict`, so a missing key behaves as an empty bucket that is deleted
again at the end), remove every connection that is not in use, drop the
address key if the bucket is then empty, and close the removed
connections outside the lock.  Returns the new map and the closed
connections. -/
def deactivate (p : MapPoolState) (a : Address) : MapPoolState × List Conn :=
  let bucket := (lookupBucket p a).getD []
  let keepClose := deactivateBucket bucket
  if keepClose.1.isEmpty then (dropBucket p a, keepClose.2)
  else (setBucket p a keepClose.1, keepClose.2)

/-- The effect of `release` on the pool map: the batch connections are the
very objects stored in the buckets, so the updates of the reset phase and
the `in_use` clearing are visible in place (release never appends to nor
removes from any bucket). -/
def releaseOnMap (p : MapPoolState) (conns : List Conn) :
    MapPoolState × List Conn × Option PoolError :=
  let r := release conns
  (⟨p.connections.map (fun kv =>
      (kv.1, kv.2.map (fun c =>
        match r.1.find? (fun d => d.id == c.id) with
        | some d => d
        | none => c)))⟩,
   r.1, r.2)

/-- Modelled from the spec: the `READ_ACCESS` constant of the `api` module
(outside the given sources); access modes are strings. -/
def READ_ACCESS : String := "READ"

/-- Modelled from the spec: the `WRITE_ACCESS` constant of the `api` module
(outside the given sources). -/
def WRITE_ACCESS : String := "WRITE"

/-- Modelled from the spec: the per-database `RoutingTable` (section 3; the
`_routing` module is outside the given sources) as used by `_pool.py`:
the three role sets (kept as lists), and the flag telling whether the
first successful fetch had no writers.  The source attribute for the flag
is `initialized_without_writers`. -/
structure RoutingTable where
  database : String
  routers : List Address
  readers : List Address
  writers : List Address
  startedWithoutWriters : Bool
deriving DecidableEq, Repr

/-- The candidate addresses of `AsyncNeo4jPool._select_address`
(lines 735-742): the readers of the routing table for `READ_ACCESS`, its
writers otherwise, and the empty tuple when there is no routing table for
the database. -/
def selectCandidates (accessMode : String) (rt : Option RoutingTable) :
    List Address :=
  match rt with
  | some t => if accessMode == READ_ACCESS then t.readers else t.writers
  | none => []

/-- The minimum of `addresses_by_usage` in `_select_address`: the least
`in_use_connection_count` over the candidates (0 for no candidates, in
which case it is never used). -/
def minUsage (p : MapPoolState) (addresses : List Address) : Nat :=
  match addresses with
  | [] => 0
  | a :: rest =>
    (rest.map (in_use_connection_count p)).foldl min (in_use_connection_count p a)

/-- `addresses_by_usage[min(addresses_by_usage)]` of `_select_address`:
the candidates whose `in_use_connection_count` is the minimum, in
insertion order. -/
def minUsageGroup (p : MapPoolState) (addresses : List Address) : List Address :=
  addresses.filter (fun a => in_use_connection_count p a == minUsage p addresses)

/-- `AsyncNeo4jPool._select_address` (lines 730-757): group the candidates
by their in-use connection count; if the grouping is empty (no
candidates), raise `ReadServiceUnavailable` or `WriteServiceUnavailable`
depending on the access mode; otherwise apply `random.choice` to the
minimum-count group, modelled by the index `pick` taken modulo the group
size. -/
def _select_address (p : MapPoolState) (pick : Nat) (accessMode : String)
    (rt : Option RoutingTable) : Except PoolError Address :=
  match minUsageGroup p (selectCandidates accessMode rt) with
  | [] =>
    if accessMode == READ_ACCESS then .error .readServiceUnavailable
    else .error .writeServiceUnavailable
  | x :: xs =>
    .ok ((x :: xs).get ⟨pick % (x :: xs).length, Nat.mod_lt _ (Nat.succ_pos _)⟩)

/-- The selection step of `AsyncNeo4jPool.acquire` (lines 784-792):
`ReadServiceUnavailable` and `WriteServiceUnavailable` raised by
`_select_address` are converted into `SessionExpired`. -/
def acquireSelectAddress (p : MapPoolState) (pick : Nat) (accessMode : String)
    (rt : Option RoutingTable) : Except PoolError Address :=
  match _select_address p pick accessMode rt with
  | .error .readServiceUnavailable => .error .sessionExpired
  | .error .writeServiceUnavailable => .error .sessionExpired
  | r => r

/-- The truthiness of the `timeout` argument of `AsyncNeo4jPool.acquire`:
`None`, `0` and `0.0` are falsy, every other float (including negative
ones) is truthy.  Floats are modelled as rationals. -/
def timeoutTruthy : Option ℚ → Bool
  | none => false
  | some q => !(decide (q = 0))

/-- The validation prefix of `AsyncNeo4jPool.acquire` (lines 759-766),
before any routing-table or pool activity: raise a `ClientError` when the
access mode is neither `WRITE_ACCESS` nor `READ_ACCESS`, then raise a
`ClientError` when `not timeout` holds (the source messages contain
quoted argument names; the quotes are left out here).  `none` means the
validation passed and the method proceeds to the routing table. -/
def acquireValidation (accessMode : String) (timeout : Option ℚ) :
    Option PoolError :=
  if !(accessMode == WRITE_ACCESS || accessMode == READ_ACCESS) then
    some (.clientError "Non valid access_mode")
  else if !(timeoutTruthy timeout) then
    some (.clientError "timeout must be a float larger than 0")
  else none

/-- The inner loop of `AsyncNeo4jPool._update_routing_table_from`
(lines 592-599): resolve one router and try each resolved address in turn
until `fetch_routing_table` yields a table.  `fetchOK` abstracts
`fetch_routing_table` returning a table rather than `None`.  Returns
whether a fetch succeeded and the addresses attempted, in order. -/
def tryResolvedAddresses (fetchOK : Address → Bool) :
    List Address → Bool × List Address
  | [] => (false, [])
  | a :: rest =>
    if fetchOK a then (true, [a])
    else
      let r := tryResolvedAddresses fetchOK rest
      (r.1, a :: r.2)

/-- `AsyncNeo4jPool._update_routing_table_from` (lines 580-615): for each
router in order, resolve it and try its addresses; stop at the first
address that yields a table (a router whose every address fails is
deactivated, an effect outside this projection).  Returns whether the
update succeeded and the resolved addresses attempted, in order. -/
def _update_routing_table_from (resolve : Address → List Address)
    (fetchOK : Address → Bool) : List Address → Bool × List Address
  | [] => (false, [])
  | router :: rest =>
    let r := tryResolvedAddresses fetchOK (resolve router)
    if r.1 then (true, r.2)
    else
      let r2 := _update_routing_table_from resolve fetchOK rest
      (r2.1, r.2 ++ r2.2)

/-- `AsyncNeo4jPool.update_routing_table` (lines 617-676):
`prefer_initial_routing_address` is the `initialized_without_writers` flag
of the table; when it holds, first try the initial address; then try the
existing routers without the initial address; when the flag does not
hold, finally try the initial address; raise `ServiceUnavailable` when
every attempt failed.  Returns the outcome and the resolved addresses
attempted, in order. -/
def update_routing_table (resolve : Address → List Address)
    (fetchOK : Address → Bool) (initialAddress : Address)
    (existingRouters : List Address) (preferInitial : Bool) :
    Except PoolError Unit × List Address :=
  if preferInitial then
    let r1 := _update_routing_table_from resolve fetchOK [initialAddress]
    if r1.1 then (.ok (), r1.2)
    else
      let r2 := _update_routing_table_from resolve fetchOK
        (existingRouters.filter (fun a => !(a == initialAddress)))
      if r2.1 then (.ok (), r1.2 ++ r2.2)
      else (.error (.serviceUnavailable "Unable to retrieve routing information"),
            r1.2 ++ r2.2)
  else
    let r2 := _update_routing_table_from resolve fetchOK
      (existingRouters.filter (fun a => !(a == initialAddress)))
    if r2.1 then (.ok (), r2.2)
    else
      let r3 := _update_routing_table_from resolve fetchOK [initialAddress]
      if r3.1 then (.ok (), r2.2 ++ r3.2)
      else (.error (.serviceUnavailable "Unable to retrieve routing information"),
            r2.2 ++ r3.2)

/-- `AsyncNeo4jPool.fetch_routing_info` (lines 482-513): with the router
connection `cx` already acquired through the core `_acquire`, issue the
ROUTE request (its outcome passed in as `routeOutcome`, the records
abstracted to a number) inside a `try` whose `finally` releases `cx`; an
exception raised by `release` itself supersedes the route outcome. -/
def fetch_routing_info (cx : Conn) (routeOutcome : Except PoolError Nat) :
    Conn × Except PoolError Nat :=
  let r := release [cx]
  let cx2 := r.1.headD cx
  match r.2 with
  | some e => (cx2, .error e)
  | none => (cx2, routeOutcome)

/-! ## Helper lemmas -/

theorem eraseFirstById_length_le (i : Nat) :
    ∀ l : List Conn, (eraseFirstById i l).length ≤ l.length := by
  intro l
  induction l with
  | nil => simp [eraseFirstById]
  | cons c rest ih =>
    by_cases h : (c.id == i) = true
    · simp only [eraseFirstById, h, if_true, List.length_cons]
      omega
    · simp only [eraseFirstById, h]
      simp only [Bool.false_eq_true, if_false, List.length_cons]
      omega

theorem deactivateBucket_length_le (bucket : List Conn) :
    (deactivateBucket bucket).1.length ≤ bucket.length := by
  simpa [deactivateBucket] using List.length_filter_le (·.inUse) bucket

/-! ## C1: reservation accounting -/

/-- C1.  For every address and every finite `max_connection_pool_size`,
the reservation accounting of `_acquire_new_later` keeps
`len(bucket) + reservations ≤ max_connection_pool_size` and
`reservations ≥ 0` across the grow path: the guarded reservation
increment preserves the invariant, and the connection creator restores
the reservation count to its pre-increment value — and hence preserves
the invariant — on every exit path, whether the open succeeds, raises
service-unavailable, or raises any other exception.  Removing rejected
connections and deactivation also preserve the invariant. -/
theorem c1_reservation_accounting (max : Option Int) (s s1 : PoolState)
    (hinv : PoolInvariant max s) (h : acquireNewLater max s = some s1) :
    PoolInvariant max s1 ∧
    s1.reservations = s.reservations + 1 ∧
    s1.bucket = s.bucket ∧
    (∀ out, PoolInvariant max (connectionCreator out s1).1 ∧
            (connectionCreator out s1).1.reservations = s.reservations) ∧
    (∀ i, PoolInvariant max ⟨eraseFirstById i s.bucket, s.reservations⟩) ∧
    PoolInvariant max ⟨(deactivateBucket s.bucket).1, s.reservations⟩ := by
  obtain ⟨hres, hbound⟩ := hinv
  -- unpack the reservation step
  unfold acquireNewLater at h
  simp only at h
  split at h
  case isFalse => exact Option.noConfusion h
  case isTrue hroom =>
    injection h with h
    subst h
    -- the bound after the increment, for finite non-negative maxima
    have hstep : ∀ m : Int, max = some m → 0 ≤ m →
        (s.bucket.length : Int) + (s.reservations + 1) ≤ m := by
      intro m hm hm0
      subst hm
      simp only [infinitePoolSize, Bool.or_eq_true, decide_eq_true_eq] at hroom
      rcases hroom with hneg | hlt <;> omega
    refine ⟨⟨by show (0 : Int) ≤ s.reservations + 1; omega, ?_⟩, rfl, rfl, ?_, ?_, ?_⟩
    · cases max with
      | none => trivial
      | some m => intro hm0; simpa using hstep m rfl hm0
    · intro out
      cases out with
      | success c =>
        refine ⟨⟨by show (0 : Int) ≤ s.reservations + 1 - 1; omega, ?_⟩,
          by show s.reservations + 1 - 1 = s.reservations; omega⟩
        cases max with
        | none => trivial
        | some m =>
          intro hm0
          have := hstep m rfl hm0
          show ((s.bucket ++ [{ c with inUse := true }]).length : Int) +
            (s.reservations + 1 - 1) ≤ m
          rw [List.length_append]
          simp only [List.length_cons, List.length_nil]
          push_cast
          omega
      | serviceUnavailable msg =>
        refine ⟨⟨by show (0 : Int) ≤ s.reservations + 1 - 1; omega, ?_⟩,
          by show s.reservations + 1 - 1 = s.reservations; omega⟩
        cases max with
        | none => trivial
        | some m =>
          intro hm0
          have hb : ((deactivateBucket s.bucket).1.length : Int) ≤ s.bucket.length := by
            exact_mod_cast deactivateBucket_length_le s.bucket
          have := hbound hm0
          show ((deactivateBucket s.bucket).1.length : Int) +
            (s.reservations + 1 - 1) ≤ m
          omega
      | otherError =>
        refine ⟨⟨by show (0 : Int) ≤ s.reservations + 1 - 1; omega, ?_⟩,
          by show s.reservations + 1 - 1 = s.reservations; omega⟩
        cases max with
        | none => trivial
        | some m =>
          intro hm0
          have := hbound hm0
          show (s.bucket.length : Int) + (s.reservations + 1 - 1) ≤ m
          omega
    · intro i
      refine ⟨hres, ?_⟩
      cases max with
      | none => trivial
      | some m =>
        intro hm0
        have he : ((eraseFirstById i s.bucket).length : Int) ≤ s.bucket.length := by
          exact_mod_cast eraseFirstById_length_le i s.bucket
        have := hbound hm0
        show ((eraseFirstById i s.bucket).length : Int) + s.reservations ≤ m
        omega
    · refine ⟨hres, ?_⟩
      cases max with
      | none => trivial
      | some m =>
        intro hm0
        have hb : ((deactivateBucket s.bucket).1.length : Int) ≤ s.bucket.length := by
          exact_mod_cast deactivateBucket_length_le s.bucket
        have := hbound hm0
        show ((deactivateBucket s.bucket).1.length : Int) + s.reservations ≤ m
        omega

/-- Witness for C1 at a concrete pool: empty bucket, no reservations,
maximum size 2. -/
theorem c1_reservation_accounting_witness :
    PoolInvariant (some 2) ⟨[], 1⟩ ∧
    (⟨[], 1⟩ : PoolState).reservations = (⟨[], 0⟩ : PoolState).reservations + 1 ∧
    (⟨[], 1⟩ : PoolState).bucket = (⟨[], 0⟩ : PoolState).bucket ∧
    (∀ out, PoolInvariant (some 2) (connectionCreator out ⟨[], 1⟩).1 ∧
            (connectionCreator out ⟨[], 1⟩).1.reservations =
              (⟨[], 0⟩ : PoolState).reservations) ∧
    (∀ i, PoolInvariant (some 2)
      ⟨eraseFirstById i (⟨[], 0⟩ : PoolState).bucket,
       (⟨[], 0⟩ : PoolState).reservations⟩) ∧
    PoolInvariant (some 2)
      ⟨(deactivateBucket (⟨[], 0⟩ : PoolState).bucket).1,
       (⟨[], 0⟩ : PoolState).reservations⟩ :=
  c1_reservation_accounting (some 2) ⟨[], 0⟩ ⟨[], 1⟩
    ⟨by decide, by intro h; decide⟩ (by decide)

theorem acquireFromPool_busy (bucket : List Conn)
    (h : ∀ c ∈ bucket, c.inUse = true) : acquireFromPool bucket = none := by
  induction bucket with
  | nil => rfl
  | cons c rest ih =>
    have hc : c.inUse = true := h c (List.mem_cons_self c rest)
    have hrest := ih (fun d hd => h d (List.mem_cons_of_mem c hd))
    simp [acquireFromPool, hc, hrest]

theorem acquireFromPoolChecked_busy (liveness : Option Nat) (expired : Bool)
    (fuel : Nat) (bucket : List Conn) (h : ∀ c ∈ bucket, c.inUse = true) :
    acquireFromPoolChecked liveness expired fuel bucket = (.ok none, bucket, []) := by
  cases fuel with
  | zero => rfl
  | succ n =>
    cases expired with
    | true => rfl
    | false => simp [acquireFromPoolChecked, acquireFromPool_busy bucket h]

/-! ## C2: pool-timeout error -/

/-- C2.  When every connection of the bucket is in use and the capacity
(bucket size plus reservations) has reached the finite maximum, an
`_acquire` iteration in which the remaining timeout is zero or the
condition-variable wait times out raises a `ClientError` whose message is
"failed to obtain a connection from the pool within <T>s (timeout)" with
<T> the repr of the original timeout of the deadline. -/
theorem c2_pool_timeout (max : Option Int) (m : Int) (liveness : Option Nat)
    (otr : String) (remaining : Nat) (out : OpenOutcome) (fuel : Nat)
    (waits : List Bool) (s : PoolState)
    (hmax : max = some m) (hm0 : 0 ≤ m)
    (hbusy : ∀ c ∈ s.bucket, c.inUse = true)
    (hcap : m ≤ (s.bucket.length : Int) + s.reservations)
    (hTO : remaining = 0 ∨ waits.headD false = false) :
    acquirePool max liveness otr remaining out (fuel + 1) waits s =
      some (s, .error (.clientError (poolTimeoutMessage otr))) ∧
    poolTimeoutMessage otr =
      "failed to obtain a connection from the pool within " ++ otr ++
        "s (timeout)" := by
  have hchecked := acquireFromPoolChecked_busy liveness (remaining == 0)
    (s.bucket.length + 1) s.bucket hbusy
  have hnew : acquireNewLater max s = none := by
    subst hmax
    unfold acquireNewLater
    simp only [infinitePoolSize]
    have h1 : decide (m < 0) = false := by simp; omega
    have h2 : decide ((s.bucket.length : Int) + s.reservations < m) = false := by
      simp; omega
    simp [h1, h2]
  have hcond : (remaining == 0 || !(waits.headD false)) = true := by
    rcases hTO with h0 | hw
    · subst h0; simp
    · rw [hw]; simp
  refine ⟨?_, rfl⟩
  unfold acquirePool
  rw [hchecked]
  simp only [hnew, hcond, if_true]

/-- Witness for C2: a pool of maximum size 1 holding one in-use
connection, an expired deadline, no wait outcomes. -/
theorem c2_pool_timeout_witness :
    acquirePool (some 1) none "3.0" 0 .otherError 1 []
        ⟨[{ id := 7, inUse := true }], 0⟩ =
      some (⟨[{ id := 7, inUse := true }], 0⟩,
        .error (.clientError (poolTimeoutMessage "3.0"))) ∧
    poolTimeoutMessage "3.0" =
      "failed to obtain a connection from the pool within " ++ "3.0" ++
        "s (timeout)" :=
  c2_pool_timeout (some 1) 1 none "3.0" 0 .otherError 0 []
    ⟨[{ id := 7, inUse := true }], 0⟩ rfl (by decide)
    (by intro c hc; simp at hc; subst hc; rfl) (by decide) (Or.inl rfl)

/-! ## C5: service-unavailable during open -/

/-- C5.  When the grow path is taken (no reusable connection, room in the
pool) and the injected opener raises `ServiceUnavailable`, the connection
creator calls `deactivate(address)` (removing and closing the idle
connections of the bucket) before the error propagates, and the
reservation taken for the open is decremented back to its pre-acquire
value. -/
theorem c5_service_unavailable_deactivates (max : Option Int)
    (liveness : Option Nat) (otr : String) (remaining : Nat) (msg : String)
    (fuel : Nat) (waits : List Bool) (s s3 : PoolState)
    (hbusy : ∀ c ∈ s.bucket, c.inUse = true)
    (hroom : acquireNewLater max s = some s3) :
    (connectionCreator (.serviceUnavailable msg) s3).2.1 = [.deactivated] ∧
    (connectionCreator (.serviceUnavailable msg) s3).2.2 =
      .error (.serviceUnavailable msg) ∧
    (connectionCreator (.serviceUnavailable msg) s3).1.reservations =
      s.reservations ∧
    (connectionCreator (.serviceUnavailable msg) s3).1.bucket =
      (deactivateBucket s.bucket).1 ∧
    acquirePool max liveness otr remaining (.serviceUnavailable msg) (fuel + 1)
      waits s =
      some (⟨(deactivateBucket s.bucket).1, s.reservations⟩,
            .error (.serviceUnavailable msg)) := by
  have hs3 : s3 = { s with reservations := s.reservations + 1 } := by
    unfold acquireNewLater at hroom
    simp only at hroom
    split at hroom
    · injection hroom with hroom
      exact hroom.symm
    · exact Option.noConfusion hroom
  subst hs3
  have hchecked := acquireFromPoolChecked_busy liveness (remaining == 0)
    (s.bucket.length + 1) s.bucket hbusy
  refine ⟨rfl, rfl, by show s.reservations + 1 - 1 = s.reservations; omega, rfl, ?_⟩
  unfold acquirePool
  rw [hchecked]
  simp only [hroom, connectionCreator]
  have hr : s.reservations + 1 - 1 = s.reservations := by omega
  rw [hr]

/-- Witness for C5: a pool of maximum size 1 with an empty bucket; the
opener fails with service-unavailable. -/
theorem c5_service_unavailable_deactivates_witness :
    (connectionCreator (.serviceUnavailable "gone") ⟨[], 1⟩).2.1 = [.deactivated] ∧
    (connectionCreator (.serviceUnavailable "gone") ⟨[], 1⟩).2.2 =
      .error (.serviceUnavailable "gone") ∧
    (connectionCreator (.serviceUnavailable "gone") ⟨[], 1⟩).1.reservations =
      (⟨[], 0⟩ : PoolState).reservations ∧
    (connectionCreator (.serviceUnavailable "gone") ⟨[], 1⟩).1.bucket =
      (deactivateBucket (⟨[], 0⟩ : PoolState).bucket).1 ∧
    acquirePool (some 1) none "3.0" 5 (.serviceUnavailable "gone") 1 [] ⟨[], 0⟩ =
      some (⟨(deactivateBucket (⟨[], 0⟩ : PoolState).bucket).1,
        (⟨[], 0⟩ : PoolState).reservations⟩, .error (.serviceUnavailable "gone")) :=
  c5_service_unavailable_deactivates (some 1) none "3.0" 5 "gone" 0 [] ⟨[], 0⟩
    ⟨[], 1⟩ (fun c hc => absurd hc (List.not_mem_nil c)) (by decide)

/-! ## C3: reuse-path health check -/

theorem acquireFromPool_inUse (bucket bucket2 : List Conn) (c : Conn)
    (h : acquireFromPool bucket = some (c, bucket2)) : c.inUse = true := by
  induction bucket generalizing bucket2 with
  | nil => exact Option.noConfusion h
  | cons d rest ih =>
    unfold acquireFromPool at h
    by_cases hd : d.inUse = true
    · rw [if_pos hd] at h
      cases hrest : acquireFromPool rest with
      | none => rw [hrest] at h; exact Option.noConfusion h
      | some p =>
        obtain ⟨c2, rest2⟩ := p
        rw [hrest] at h
        simp only [Option.some.injEq, Prod.mk.injEq] at h
        obtain ⟨h1, h2⟩ := h
        subst h1
        exact ih rest2 hrest
    · rw [if_neg hd] at h
      simp only [Option.some.injEq, Prod.mk.injEq] at h
      obtain ⟨h1, h2⟩ := h
      rw [← h1]

/-- C3.  During the reuse path of `_acquire`: the health check rejects an
idle connection exactly when it is closed, defunct or stale, or when a
liveness check timeout is configured, the connection has been idle for at
least that long, and the bounded `reset()` fails with a transport or
protocol error (`OSError` / `ServiceUnavailable` / `SessionExpired`); a
rejected connection is closed and removed from the bucket and the scan
continues (removal being silent when the connection is already gone);
an accepted connection is returned with `in_use` true. -/
theorem c3_reuse_health_check (liveness : Option Nat) (fuel : Nat)
    (bucket bucket2 : List Conn) (c : Conn) :
    (∀ d : Conn, health_check liveness d = .ok false ↔
      ((d.closed || d.defunct || d.stale) = true ∨
       ((d.closed || d.defunct || d.stale) = false ∧
        ∃ t, liveness = some t ∧ is_idle_for d t = true ∧
          transportOrProtocolFailure d.resetOutcome = true))) ∧
    (acquireFromPool bucket = some (c, bucket2) →
      (health_check liveness c = .ok false →
        (acquireFromPoolChecked liveness false (fuel + 1) bucket =
          ((acquireFromPoolChecked liveness false fuel
              (eraseFirstById c.id bucket2)).1,
           (acquireFromPoolChecked liveness false fuel
              (eraseFirstById c.id bucket2)).2.1,
           close_connection c ::
             (acquireFromPoolChecked liveness false fuel
                (eraseFirstById c.id bucket2)).2.2) ∧
         (close_connection c).closed = true)) ∧
      (health_check liveness c = .ok true →
        (acquireFromPoolChecked liveness false (fuel + 1) bucket =
          (.ok (some c), bucket2, []) ∧
         c.inUse = true))) ∧
    (∀ i, ∀ b : List Conn, (∀ d ∈ b, (d.id == i) = false) →
      eraseFirstById i b = b) := by
  refine ⟨?_, ?_, ?_⟩
  · intro d
    unfold health_check
    by_cases hflag : (d.closed || d.defunct || d.stale) = true
    · simp [hflag]
    · cases liveness with
      | none => simp [hflag]
      | some t =>
        by_cases hidle : is_idle_for d t = true
        · cases ho : d.resetOutcome <;>
            simp [hflag, hidle, ho, transportOrProtocolFailure]
        · simp [hflag, hidle]
  · intro hpool
    constructor
    · intro hhc
      refine ⟨?_, rfl⟩
      conv_lhs => rw [acquireFromPoolChecked]
      simp only [Bool.false_eq_true, if_false, hpool, hhc]
    · intro hhc
      refine ⟨?_, acquireFromPool_inUse bucket bucket2 c hpool⟩
      conv_lhs => rw [acquireFromPoolChecked]
      simp only [Bool.false_eq_true, if_false, hpool, hhc]
  · intro i b hb
    induction b with
    | nil => rfl
    | cons d rest ih =>
      have hd : (d.id == i) = false := hb d (List.mem_cons_self d rest)
      have hrest := ih (fun e he => hb e (List.mem_cons_of_mem d he))
      simp [eraseFirstById, hd, hrest]

/-- Witness for C3: one stale connection in the bucket; the scan rejects
it, closes it, removes it and continues. -/
theorem c3_reuse_health_check_witness :
    (acquireFromPoolChecked none false 1 [{ id := 1, stale := true }] =
      ((acquireFromPoolChecked none false 0
          (eraseFirstById 1 [{ id := 1, stale := true, inUse := true }])).1,
       (acquireFromPoolChecked none false 0
          (eraseFirstById 1 [{ id := 1, stale := true, inUse := true }])).2.1,
       close_connection { id := 1, stale := true, inUse := true } ::
         (acquireFromPoolChecked none false 0
            (eraseFirstById 1 [{ id := 1, stale := true, inUse := true }])).2.2) ∧
     (close_connection { id := 1, stale := true, inUse := true }).closed = true) :=
  ((c3_reuse_health_check none 0 [{ id := 1, stale := true }]
      [{ id := 1, stale := true, inUse := true }]
      { id := 1, stale := true, inUse := true }).2.1 rfl).1 rfl

/-! ## C4: release semantics -/

/-- Whether processing this connection in the reset phase of `release`
captures a cancellation: it is unclean and its `reset()` raises
`CancelledError`. -/
def capturesCancel (c : Conn) : Bool :=
  !cleanOnRelease c && (c.resetOutcome == .cancelled)

/-- The effect of the reset attempt on one connection, following the
claim's description of the release algorithm (stated for comparison with
`release`, which is translated from the source): clean connections are
untouched; a successful reset marks the connection reset; a reset that
raises a protocol/driver error is swallowed; a reset that raises a
cancellation kills the connection. -/
def resetEffect (c : Conn) : Conn :=
  if cleanOnRelease c then c
  else
    match c.resetOutcome with
    | .ok => { c with isReset := true, resetAttempted := true }
    | .cancelled => kill { c with resetAttempted := true }
    | _ => { c with resetAttempted := true }

/-- Kill a connection unless it is clean (the downgraded treatment of the
batch remainder after a captured cancellation, per the claim). -/
def killIfUnclean (c : Conn) : Conn :=
  if cleanOnRelease c then c else kill c

/-- The claim's description of the reset phase of `release`: each
connection in order receives its reset effect until a cancellation is
captured, after which every remaining unclean connection is killed
instead of reset. -/
def releaseClaimModel : List Conn → List Conn
  | [] => []
  | c :: rest =>
    if capturesCancel c then resetEffect c :: rest.map killIfUnclean
    else resetEffect c :: releaseClaimModel rest

theorem releaseResetPhase_true_eq (l : List Conn) :
    releaseResetPhase true l = (l.map killIfUnclean, true, false) := by
  induction l with
  | nil => rfl
  | cons c rest ih =>
    by_cases hclean : cleanOnRelease c = true
    · simp [releaseResetPhase, hclean, ih, killIfUnclean]
    · simp [releaseResetPhase, hclean, ih, killIfUnclean]

theorem releaseResetPhase_false_eq (l : List Conn)
    (hos : ∀ c ∈ l, c.resetOutcome ≠ .osError) :
    releaseResetPhase false l =
      (releaseClaimModel l, l.any capturesCancel, false) := by
  induction l with
  | nil => rfl
  | cons c rest ih =>
    have hrest := ih (fun d hd => hos d (List.mem_cons_of_mem c hd))
    by_cases hclean : cleanOnRelease c = true
    · simp [releaseResetPhase, releaseClaimModel, resetEffect, capturesCancel,
        hclean, hrest]
    · have hc := hos c (List.mem_cons_self c rest)
      cases ho : c.resetOutcome with
      | osError => exact absurd ho hc
      | cancelled =>
        simp [releaseResetPhase, releaseClaimModel, resetEffect, capturesCancel,
          hclean, ho, releaseResetPhase_true_eq]
      | ok =>
        simp [releaseResetPhase, releaseClaimModel, resetEffect, capturesCancel,
          hclean, ho, hrest]
      | serviceUnavailable =>
        simp [releaseResetPhase, releaseClaimModel, resetEffect, capturesCancel,
          hclean, ho, hrest]
      | sessionExpired =>
        simp [releaseResetPhase, releaseClaimModel, resetEffect, capturesCancel,
          hclean, ho, hrest]
      | neo4jError =>
        simp [releaseResetPhase, releaseClaimModel, resetEffect, capturesCancel,
          hclean, ho, hrest]
      | driverError =>
        simp [releaseResetPhase, releaseClaimModel, resetEffect, capturesCancel,
          hclean, ho, hrest]
      | boltError =>
        simp [releaseResetPhase, releaseClaimModel, resetEffect, capturesCancel,
          hclean, ho, hrest]

/-- C4.  `release` realizes the claim's algorithm, provided `reset()`
raises only driver-classified errors or cancellation (the driver error
taxonomy of the spec): connections that are closed, defunct or already
reset are not touched; otherwise `reset()` is attempted with
protocol/driver errors swallowed; once a cancellation is captured every
subsequent unclean connection in the batch is killed instead of reset;
every connection of the batch ends with `in_use` cleared (the
notification of the waiters has no observable counterpart in this
sequential model); and the cancellation, when captured, is re-raised at
the very end. -/
theorem c4_release_semantics (conns : List Conn)
    (hos : ∀ c ∈ conns, c.resetOutcome ≠ .osError) :
    release conns =
      ((releaseClaimModel conns).map (fun c => { c with inUse := false }),
       if conns.any capturesCancel then some .cancelled else none) := by
  unfold release
  rw [releaseResetPhase_false_eq conns hos]
  simp only [Bool.false_eq_true, if_false]

/-- Witness for C4: a batch with a clean connection, a cleanly resetting
connection, a connection whose reset is cancelled, and a trailing unclean
connection that gets killed. -/
theorem c4_release_semantics_witness :
    release
        [{ id := 1, inUse := true, isReset := true },
         { id := 2, inUse := true },
         { id := 3, inUse := true, resetOutcome := .cancelled },
         { id := 4, inUse := true }] =
      ((releaseClaimModel
          [{ id := 1, inUse := true, isReset := true },
           { id := 2, inUse := true },
           { id := 3, inUse := true, resetOutcome := .cancelled },
           { id := 4, inUse := true }]).map (fun c => { c with inUse := false }),
       if List.any
            [{ id := 1, inUse := true, isReset := true },
             { id := 2, inUse := true },
             { id := 3, inUse := true, resetOutcome := .cancelled },
             { id := 4, inUse := true }] capturesCancel
       then some PoolError.cancelled else none) :=
  c4_release_semantics _ (by decide)

/-! ## C10: router connection released on every path -/

/-- C10.  `fetch_routing_info` releases the router connection in its
`finally` block, so the connection ends with `in_use` false whether the
ROUTE request succeeds or raises; when the release itself raises nothing,
the route outcome (including a raised error) propagates unchanged. -/
theorem c10_router_connection_released (cx : Conn) (ro : Except PoolError Nat)
    (hos : cx.resetOutcome ≠ .osError) :
    (fetch_routing_info cx ro).1.inUse = false ∧
    ((release [cx]).2 = none → (fetch_routing_info cx ro).2 = ro) := by
  have hone : ∀ c ∈ [cx], c.resetOutcome ≠ .osError := by
    intro c hc
    rw [List.mem_singleton] at hc
    subst hc
    exact hos
  have hrel : release [cx] =
      ([{ resetEffect cx with inUse := false }],
       if capturesCancel cx then some .cancelled else none) := by
    unfold release
    rw [releaseResetPhase_false_eq [cx] hone]
    simp [releaseClaimModel]
  constructor
  · unfold fetch_routing_info
    rw [hrel]
    cases hc : capturesCancel cx <;> simp
  · intro hnone
    unfold fetch_routing_info
    rw [hrel] at hnone ⊢
    cases hcc : capturesCancel cx with
    | true => rw [hcc] at hnone; simp at hnone
    | false => simp

/-- Witness for C10: an unclean router connection whose reset succeeds,
with the ROUTE request raising session-expired. -/
theorem c10_router_connection_released_witness :
    (fetch_routing_info { id := 5, inUse := true }
        (.error .sessionExpired)).1.inUse = false ∧
    ((release [{ id := 5, inUse := true }]).2 = none →
      (fetch_routing_info { id := 5, inUse := true }
          (.error .sessionExpired)).2 = .error .sessionExpired) :=
  c10_router_connection_released { id := 5, inUse := true }
    (.error .sessionExpired) (by decide)

/-! ## C6: address selection -/

theorem foldl_min_le_init (l : List Nat) : ∀ x : Nat, l.foldl min x ≤ x := by
  induction l with
  | nil => intro x; simp
  | cons b t ih =>
    intro x
    refine le_trans (ih (min x b)) ?_
    rw [min_def]
    by_cases hxb : x ≤ b
    · rw [if_pos hxb]
    · rw [if_neg hxb]
      omega

theorem foldl_min_mem (l : List Nat) :
    ∀ x : Nat, l.foldl min x = x ∨ l.foldl min x ∈ l := by
  induction l with
  | nil => intro x; left; rfl
  | cons b t ih =>
    intro x
    rcases ih (min x b) with h | h
    · rcases Nat.le_total x b with hxb | hbx
      · left
        rw [List.foldl_cons, h, min_def, if_pos hxb]
      · right
        rw [List.foldl_cons, h]
        have hmin : min x b = b := by
          rw [min_def]
          by_cases hxb : x ≤ b
          · rw [if_pos hxb]
            omega
          · rw [if_neg hxb]
        rw [hmin]
        exact List.mem_cons_self b t
    · right
      rw [List.foldl_cons]
      exact List.mem_cons_of_mem b h

theorem minUsage_attained (p : MapPoolState) (addresses : List Address)
    (h : addresses ≠ []) :
    ∃ a ∈ addresses, in_use_connection_count p a = minUsage p addresses := by
  cases addresses with
  | nil => exact absurd rfl h
  | cons a rest =>
    unfold minUsage
    rcases foldl_min_mem (rest.map (in_use_connection_count p))
        (in_use_connection_count p a) with hm | hm
    · exact ⟨a, List.mem_cons_self a rest, hm.symm⟩
    · obtain ⟨b, hb, hbeq⟩ := List.mem_map.mp hm
      exact ⟨b, List.mem_cons_of_mem a hb, hbeq⟩

theorem exists_pick (x : Address) (xs : List Address) (a : Address)
    (ha : a ∈ x :: xs) :
    ∃ n : Nat,
      (x :: xs).get ⟨n % (x :: xs).length, Nat.mod_lt _ (Nat.succ_pos _)⟩ = a := by
  obtain ⟨⟨i, hi⟩, hget⟩ := List.mem_iff_get.mp ha
  refine ⟨i, ?_⟩
  have hmod : i % (x :: xs).length = i := Nat.mod_eq_of_lt hi
  have hfin : (⟨i % (x :: xs).length, Nat.mod_lt _ (Nat.succ_pos _)⟩ :
      Fin (x :: xs).length) = ⟨i, hi⟩ := Fin.ext hmod
  rw [hfin]
  exact hget

/-- C6.  `_select_address` takes its candidates from the routing table's
readers for `READ_ACCESS` and writers for `WRITE_ACCESS`; every selected
address belongs to the candidates and has the minimum
`in_use_connection_count` among them; conversely every minimum-count
candidate is selected for some value of the random pick (the support of
`random.choice` is exactly the minimum group); with no candidates the
selection raises `ReadServiceUnavailable` or `WriteServiceUnavailable`
according to the role, which the routing `acquire` converts into
`SessionExpired`; with candidates present the selection always succeeds. -/
theorem c6_select_address (p : MapPoolState) (t : RoutingTable) (pick : Nat) :
    selectCandidates READ_ACCESS (some t) = t.readers ∧
    selectCandidates WRITE_ACCESS (some t) = t.writers ∧
    (∀ mode a, _select_address p pick mode (some t) = .ok a →
       a ∈ selectCandidates mode (some t) ∧
       in_use_connection_count p a =
         minUsage p (selectCandidates mode (some t))) ∧
    (∀ mode a, a ∈ minUsageGroup p (selectCandidates mode (some t)) →
       ∃ n, _select_address p n mode (some t) = .ok a) ∧
    (∀ mode, selectCandidates mode (some t) ≠ [] →
       ∃ a, _select_address p pick mode (some t) = .ok a) ∧
    (t.readers = [] →
       _select_address p pick READ_ACCESS (some t) =
         .error .readServiceUnavailable ∧
       acquireSelectAddress p pick READ_ACCESS (some t) =
         .error .sessionExpired) ∧
    (t.writers = [] →
       _select_address p pick WRITE_ACCESS (some t) =
         .error .writeServiceUnavailable ∧
       acquireSelectAddress p pick WRITE_ACCESS (some t) =
         .error .sessionExpired) := by
  refine ⟨rfl, rfl, ?_, ?_, ?_, ?_, ?_⟩
  · intro mode a h
    unfold _select_address at h
    cases hg : minUsageGroup p (selectCandidates mode (some t)) with
    | nil =>
      rw [hg] at h
      by_cases hm : (mode == READ_ACCESS) = true <;> simp [hm] at h
    | cons x xs =>
      rw [hg] at h
      have hmem : a ∈ x :: xs := by
        have := List.get_mem (x :: xs) (pick % (x :: xs).length)
          (Nat.mod_lt _ (Nat.succ_pos _))
        simp only [Except.ok.injEq] at h
        exact h ▸ this
      rw [← hg] at hmem
      unfold minUsageGroup at hmem
      have := List.mem_filter.mp hmem
      exact ⟨this.1, by simpa using this.2⟩
  · intro mode a ha
    cases hg : minUsageGroup p (selectCandidates mode (some t)) with
    | nil =>
      rw [hg] at ha
      exact absurd ha (List.not_mem_nil a)
    | cons x xs =>
      rw [hg] at ha
      obtain ⟨n, hn⟩ := exists_pick x xs a ha
      refine ⟨n, ?_⟩
      unfold _select_address
      rw [hg]
      exact congrArg Except.ok hn
  · intro mode hne
    obtain ⟨a, ha, haeq⟩ := minUsage_attained p (selectCandidates mode (some t)) hne
    have hag : a ∈ minUsageGroup p (selectCandidates mode (some t)) := by
      unfold minUsageGroup
      exact List.mem_filter.mpr ⟨ha, by simpa using haeq⟩
    cases hg : minUsageGroup p (selectCandidates mode (some t)) with
    | nil =>
      rw [hg] at hag
      exact absurd hag (List.not_mem_nil a)
    | cons x xs =>
      refine ⟨(x :: xs).get ⟨pick % (x :: xs).length, Nat.mod_lt _ (Nat.succ_pos _)⟩, ?_⟩
      unfold _select_address
      rw [hg]
  · intro hr
    have hcand : selectCandidates READ_ACCESS (some t) = [] := by
      simpa [selectCandidates] using hr
    have hg : minUsageGroup p (selectCandidates READ_ACCESS (some t)) = [] := by
      rw [hcand]; rfl
    constructor
    · unfold _select_address
      rw [hg]
      rfl
    · unfold acquireSelectAddress _select_address
      rw [hg]
      rfl
  · intro hw
    have hcand : selectCandidates WRITE_ACCESS (some t) = [] := by
      simpa [selectCandidates, WRITE_ACCESS, READ_ACCESS] using hw
    have hg : minUsageGroup p (selectCandidates WRITE_ACCESS (some t)) = [] := by
      rw [hcand]; rfl
    constructor
    · unfold _select_address
      rw [hg]
      rfl
    · unfold acquireSelectAddress _select_address
      rw [hg]
      rfl

/-- Witness for C6: an empty pool and a routing table with no readers;
read selection raises and the routing acquire converts the error. -/
theorem c6_select_address_witness :
    _select_address ⟨[]⟩ 0 READ_ACCESS
        (some ⟨"neo4j", [⟨"r1", 7687⟩], [], [⟨"w1", 7687⟩], false⟩) =
      .error .readServiceUnavailable ∧
    acquireSelectAddress ⟨[]⟩ 0 READ_ACCESS
        (some ⟨"neo4j", [⟨"r1", 7687⟩], [], [⟨"w1", 7687⟩], false⟩) =
      .error .sessionExpired :=
  (c6_select_address ⟨[]⟩
      ⟨"neo4j", [⟨"r1", 7687⟩], [], [⟨"w1", 7687⟩], false⟩ 0).2.2.2.2.2.1 rfl

/-! ## C7: routing-table update order -/

theorem update_from_append (resolve : Address → List Address)
    (fetchOK : Address → Bool) (xs ys : List Address) :
    _update_routing_table_from resolve fetchOK (xs ++ ys) =
      (if (_update_routing_table_from resolve fetchOK xs).1 then
        _update_routing_table_from resolve fetchOK xs
       else
        ((_update_routing_table_from resolve fetchOK ys).1,
         (_update_routing_table_from resolve fetchOK xs).2 ++
           (_update_routing_table_from resolve fetchOK ys).2)) := by
  induction xs with
  | nil => simp [_update_routing_table_from]
  | cons router rest ih =>
    simp only [List.cons_append]
    simp only [_update_routing_table_from]
    by_cases hr : (tryResolvedAddresses fetchOK (resolve router)).1 = true
    · simp [hr]
    · simp only [hr, Bool.false_eq_true, if_false, ih]
      by_cases hrest : (_update_routing_table_from resolve fetchOK rest).1 = true
      · simp [hrest]
      · simp [hrest, List.append_assoc]

/-- The router order stated by the claim for `update_routing_table`: the
initial address first when the table was initialized without writers, then
the existing routers without the initial address, then the initial address
last otherwise. -/
def routerTryOrder (initialAddress : Address) (existingRouters : List Address)
    (preferInitial : Bool) : List Address :=
  (if preferInitial then [initialAddress] else []) ++
    existingRouters.filter (fun a => !(a == initialAddress)) ++
    (if preferInitial then [] else [initialAddress])

/-- C7.  `update_routing_table` is the first-success scan of the routers in
the claimed order — initial address first iff the table was initialized
without writers, then the existing routers minus the initial address, then
the initial address last iff the flag is unset — attempting exactly the
resolved addresses up to the first success and raising
`ServiceUnavailable` ("Unable to retrieve routing information") when every
router is exhausted. -/
theorem c7_update_routing_table_order (resolve : Address → List Address)
    (fetchOK : Address → Bool) (initialAddress : Address)
    (existingRouters : List Address) (preferInitial : Bool) :
    update_routing_table resolve fetchOK initialAddress existingRouters
        preferInitial =
      (if (_update_routing_table_from resolve fetchOK
            (routerTryOrder initialAddress existingRouters preferInitial)).1
       then .ok ()
       else .error (.serviceUnavailable "Unable to retrieve routing information"),
       (_update_routing_table_from resolve fetchOK
         (routerTryOrder initialAddress existingRouters preferInitial)).2) := by
  cases preferInitial with
  | true =>
    unfold update_routing_table routerTryOrder
    simp only [if_true, List.append_nil]
    rw [update_from_append]
    by_cases h1 : (_update_routing_table_from resolve fetchOK [initialAddress]).1 = true
    · simp [h1]
    · simp only [h1, Bool.false_eq_true, if_false]
      by_cases h2 : (_update_routing_table_from resolve fetchOK
          (existingRouters.filter (fun a => !(a == initialAddress)))).1 = true
      · simp [h1, h2]
      · simp [h1, h2]
  | false =>
    unfold update_routing_table routerTryOrder
    simp only [Bool.false_eq_true, if_false, List.nil_append]
    rw [update_from_append]
    by_cases h2 : (_update_routing_table_from resolve fetchOK
        (existingRouters.filter (fun a => !(a == initialAddress)))).1 = true
    · simp [h2]
    · simp only [h2, Bool.false_eq_true, if_false]
      by_cases h3 : (_update_routing_table_from resolve fetchOK [initialAddress]).1 = true
      · simp [h2, h3]
      · simp [h2, h3]

/-! ## C8: acquire validation -/

/-- C8 (evaluation of the code at the failing input).  The validation
prefix of `AsyncNeo4jPool.acquire` checks only the truthiness of
`timeout`, so `None`, `0` and `0.0` raise a `ClientError`, a bogus access
mode raises a `ClientError`, but a negative timeout — which is not
strictly greater than zero — passes the validation and the method
proceeds to routing-table activity, contradicting the claim (and the
message of the source's own error, which demands a float larger than 0). -/
theorem c8_validation_negative_timeout :
    acquireValidation READ_ACCESS (some (-1)) = none ∧
    ((-1 : ℚ) ≤ 0) ∧
    acquireValidation READ_ACCESS none =
      some (.clientError "timeout must be a float larger than 0") ∧
    acquireValidation READ_ACCESS (some 0) =
      some (.clientError "timeout must be a float larger than 0") ∧
    acquireValidation WRITE_ACCESS (some 0) =
      some (.clientError "timeout must be a float larger than 0") ∧
    acquireValidation "BOGUS" (some 1) =
      some (.clientError "Non valid access_mode") := by
  refine ⟨rfl, by norm_num, rfl, ?_, ?_, rfl⟩
  · unfold acquireValidation timeoutTruthy
    norm_num
  · unfold acquireValidation timeoutTruthy
    norm_num

/-! ## C9: deactivate with in-use connections -/

theorem find_filter_ne (a : Address) (l : List (Address × List Conn)) :
    (l.filter (fun kv => !(kv.1 == a))).find? (fun kv => kv.1 == a) = none := by
  induction l with
  | nil => rfl
  | cons kv rest ih =>
    by_cases hkv : (kv.1 == a) = true
    · simp only [List.filter_cons, hkv]
      simp only [Bool.not_true, Bool.false_eq_true, if_false]
      exact ih
    · simp [List.filter_cons, hkv, List.find?_cons, ih]

theorem lookup_dropBucket (p : MapPoolState) (a : Address) :
    lookupBucket (dropBucket p a) a = none := by
  unfold lookupBucket dropBucket
  rw [find_filter_ne]
  rfl

theorem find_setBucket_list (a : Address) (b : List Conn) :
    ∀ l : List (Address × List Conn),
      (l.find? (fun kv => kv.1 == a)).isSome = true →
      ((l.map (fun kv => if kv.1 == a then (kv.1, b) else kv)).find?
          (fun kv => kv.1 == a)).map (fun kv => kv.2) = some b := by
  intro l
  induction l with
  | nil => intro h; simp at h
  | cons kv rest ih =>
    intro h
    by_cases hkv : (kv.1 == a) = true
    · rw [List.map_cons, if_pos hkv,
        @List.find?_cons_of_pos _ (fun kv => kv.1 == a) (kv.1, b) _ hkv]
      rfl
    · rw [@List.find?_cons_of_neg _ (fun kv => kv.1 == a) kv _ hkv] at h
      rw [List.map_cons, if_neg hkv,
        @List.find?_cons_of_neg _ (fun kv => kv.1 == a) kv _ hkv]
      exact ih h

theorem lookup_setBucket (p : MapPoolState) (a : Address) (b : List Conn)
    (h : (lookupBucket p a).isSome = true) :
    lookupBucket (setBucket p a b) a = some b := by
  unfold lookupBucket at h
  unfold lookupBucket setBucket
  exact find_setBucket_list a b p.connections (by simpa using h)

/-- C9 counterexample inputs: one in-use and one idle connection to the
address. -/
def deactAddr : Address := ⟨"10.0.0.7", 7687⟩

/-- The in-use connection of the C9 counterexample (protocol-clean, so a
later release has nothing to reset). -/
def deactConnBusy : Conn := { id := 11, inUse := true, isReset := true }

/-- The idle connection of the C9 counterexample. -/
def deactConnIdle : Conn := { id := 12, isReset := true }

/-- The pool of the C9 counterexample. -/
def deactPool : MapPoolState := ⟨[(deactAddr, [deactConnBusy, deactConnIdle])]⟩

/-- C9 counterexample: deactivating an address with an in-use connection
does NOT drop the address's bucket from the connections map (the bucket is
kept with exactly the in-use connection, the idle one being closed and
removed), and when the in-use connection is later released it is not
discarded: its `in_use` flag is cleared in place and a subsequent scan
reuses it from the bucket. -/
theorem c9_counterexample :
    (deactivate deactPool deactAddr).1.connections =
      [(deactAddr, [deactConnBusy])] ∧
    lookupBucket (deactivate deactPool deactAddr).1 deactAddr ≠ none ∧
    (deactivate deactPool deactAddr).2 =
      [{ deactConnIdle with closed := true }] ∧
    (releaseOnMap (deactivate deactPool deactAddr).1 [deactConnBusy]).1.connections =
      [(deactAddr, [{ deactConnBusy with inUse := false }])] ∧
    acquireFromPool ((lookupBucket
        (releaseOnMap (deactivate deactPool deactAddr).1 [deactConnBusy]).1
        deactAddr).getD []) =
      some ({ deactConnBusy with inUse := true },
        [{ deactConnBusy with inUse := true }]) := by
  refine ⟨rfl, ?_, rfl, rfl, rfl⟩
  intro h
  simp [deactivate, deactPool, deactAddr, deactConnBusy, deactConnIdle,
    deactivateBucket, lookupBucket, setBucket, dropBucket] at h

/-- C9 amended.  After `deactivate(a)`: the idle connections of `a`'s
bucket are closed and returned; the bucket is dropped from the map only
when no in-use connection remains, and otherwise is kept holding exactly
the in-use connections; a released connection is never discarded — the
release path touches no bucket membership (keys and bucket sizes are
preserved) and a clean connection merely has `in_use` cleared in place,
leaving it available for reuse. -/
theorem c9_deactivate_amended (p : MapPoolState) (a : Address) :
    ((deactivate p a).2 =
      (((lookupBucket p a).getD []).filter (fun c => !c.inUse)).map
        close_connection) ∧
    (((lookupBucket p a).getD []).filter (·.inUse) = [] →
      lookupBucket (deactivate p a).1 a = none) ∧
    (((lookupBucket p a).getD []).filter (·.inUse) ≠ [] →
      lookupBucket (deactivate p a).1 a =
        some (((lookupBucket p a).getD []).filter (·.inUse))) ∧
    (∀ c : Conn, cleanOnRelease c = true →
      release [c] = ([{ c with inUse := false }], none)) ∧
    (∀ q : MapPoolState, ∀ conns : List Conn,
      (releaseOnMap q conns).1.connections.map (fun kv => kv.1) =
        q.connections.map (fun kv => kv.1) ∧
      (releaseOnMap q conns).1.connections.map (fun kv => kv.2.length) =
        q.connections.map (fun kv => kv.2.length)) := by
  refine ⟨?_, ?_, ?_, ?_, ?_⟩
  · simp only [deactivate]
    split <;> rfl
  · intro hempty
    simp only [deactivate, deactivateBucket]
    rw [hempty]
    simp only [List.isEmpty_nil, if_true]
    exact lookup_dropBucket p a
  · intro hne
    have hsome : (lookupBucket p a).isSome = true := by
      cases hlk : lookupBucket p a with
      | none => rw [hlk] at hne; exact absurd rfl hne
      | some b0 => rfl
    simp only [deactivate, deactivateBucket]
    cases hke : (((lookupBucket p a).getD []).filter (·.inUse)).isEmpty with
    | true =>
      rw [List.isEmpty_iff] at hke
      exact absurd hke hne
    | false =>
      simp only [Bool.false_eq_true, if_false]
      exact lookup_setBucket p a _ hsome
  · intro c hclean
    unfold release releaseResetPhase
    rw [hclean]
    rfl
  · intro q conns
    unfold releaseOnMap
    constructor
    · simp [List.map_map]
    · simp [List.map_map, Function.comp, List.length_map]

/-- Witness for the amended C9, at the counterexample pool: the bucket
survives deactivation holding exactly its in-use connection. -/
theorem c9_deactivate_amended_witness :
    lookupBucket (deactivate deactPool deactAddr).1 deactAddr =
      some (((lookupBucket deactPool deactAddr).getD []).filter (·.inUse)) :=
  (c9_deactivate_amended deactPool deactAddr).2.2.1 (by decide)

end Neo4jPool
